import Mathlib

/-!
Verification of the particle-ensemble physics engine (`ParticleSystem` in
`physics_simulator.py`): velocity sampling, time-stepped motion with wall
reflection, and the three Maxwell characteristic speeds.

The embedding is a shallow one over the reals.  Randomness is injected: the
uniform position draws `u`, the Maxwell speed sampler `maxwellSample` (which
receives the scale the code passes to `maxwell.rvs`) and the uniform angle
draws `angle` are explicit functional parameters, so every definition is a
pure function of the state and of those draws, exactly mirroring the
per-particle arithmetic of the source.
-/

/-- The state held by `ParticleSystem.__init__`: particle count `n`, the mode
string, the physical parameter, the box size (always 15 in the source), and
the per-particle position and velocity arrays, modelled as lists of real
pairs. -/
structure ParticleSystem where
  n : ℕ
  simulation_mode : String
  physical_param : ℝ
  box_size : ℝ
  pos : List (ℝ × ℝ)
  vel : List (ℝ × ℝ)

/-- One axis of `ParticleSystem._handle_boundary`: `np.where((x < 0) | (x > box), -v, v)`
applied to a single particle's coordinate `x` and velocity component `v`. -/
noncomputable def reflect1 (box x v : ℝ) : ℝ :=
  if x < 0 ∨ x > box then -v else v

/-- `ParticleSystem.update`: `self.pos += self.vel * 0.03` followed by
`self._handle_boundary()`, which negates each velocity component whose
post-translation coordinate lies outside `[0, box_size]`.  The reflection
reads the already-translated positions, per particle and per axis. -/
noncomputable def ParticleSystem.update (s : ParticleSystem) : ParticleSystem :=
  let newPos := List.zipWith
    (fun (p v : ℝ × ℝ) => (p.1 + v.1 * 0.03, p.2 + v.2 * 0.03)) s.pos s.vel
  let newVel := List.zipWith
    (fun (p v : ℝ × ℝ) => (reflect1 s.box_size p.1 v.1, reflect1 s.box_size p.2 v.2))
    newPos s.vel
  { s with pos := newPos, vel := newVel }

/-- `k` successive calls to `ParticleSystem.update`. -/
noncomputable def ParticleSystem.advanceN (s : ParticleSystem) : ℕ → ParticleSystem
  | 0 => s
  | k + 1 => (s.advanceN k).update

/-- The `speeds` property: `np.linalg.norm(self.vel, axis=1)`, the Euclidean
norm of each particle's velocity, recomputed from the current `vel` array. -/
noncomputable def ParticleSystem.speeds (s : ParticleSystem) : List ℝ :=
  s.vel.map (fun v => Real.sqrt (v.1 ^ 2 + v.2 ^ 2))

/-- `ParticleSystem.get_characteristic_speeds`: recomputes the scale from the
mode (the string comparison is against the exact literal `'temperature'`; every
other mode string takes the `sqrt(1/physical_param)` branch) and returns
`(sqrt(2)·scale, 2·sqrt(2/π)·scale, sqrt(3)·scale)`. -/
noncomputable def ParticleSystem.get_characteristic_speeds (s : ParticleSystem) : ℝ × ℝ × ℝ :=
  let scale := if s.simulation_mode = "temperature" then s.physical_param
               else Real.sqrt (1 / s.physical_param)
  (Real.sqrt 2 * scale, 2 * Real.sqrt (2 / Real.pi) * scale, Real.sqrt 3 * scale)

/-- The scale derivation duplicated in `_handle_boundary`'s sibling methods:
`scale = physical_param` when the mode string is exactly `'temperature'`,
otherwise `scale = sqrt(1/physical_param)`. -/
noncomputable def scaleOf (mode : String) (p : ℝ) : ℝ :=
  if mode = "temperature" then p else Real.sqrt (1 / p)

/-- The body of `ParticleSystem._initialize_velocities` with the random draws
injected: it computes the scale from the mode, feeds that scale to
`maxwell.rvs` (modelled by `maxwellSample : scale → index → speed`), draws one
angle per particle and stores `(speed·cos(angle), speed·sin(angle))`. -/
noncomputable def sample_velocities (mode : String) (p : ℝ) (n : ℕ)
    (maxwellSample : ℝ → ℕ → ℝ) (angle : ℕ → ℝ) : List (ℝ × ℝ) :=
  let scale := if mode = "temperature" then p else Real.sqrt (1 / p)
  (List.range n).map (fun i =>
    (maxwellSample scale i * Real.cos (angle i), maxwellSample scale i * Real.sin (angle i)))

/-- Whether an `Except` value is a success. -/
def exceptOk {ε α : Type _} : Except ε α → Bool
  | Except.ok _ => true
  | Except.error _ => false

/-- `ParticleSystem.__init__` as an `Except`.  The constructor itself contains
no validation; the error branches model exactly where the numeric libraries
raise on the constructor's code path:
* `np.random.rand(n, 2)` raises `ValueError` for negative `n`;
* in the non-temperature branch `1 / physical_param` raises
  `ZeroDivisionError` when `physical_param = 0`;
* `maxwell.rvs` raises `ValueError("Domain error in arguments.")` when its
  scale is negative (temperature mode with `physical_param < 0`) or NaN
  (other modes with `physical_param < 0`, where `sqrt(1/p)` is NaN).
Every other input — including `n = 0` and temperature mode with
`physical_param = 0` — constructs successfully without any error. -/
noncomputable def ParticleSystem.init (n : ℤ) (mode : String) (p : ℝ)
    (u : ℕ → ℝ × ℝ) (maxwellSample : ℝ → ℕ → ℝ) (angle : ℕ → ℝ) :
    Except String ParticleSystem :=
  if n < 0 then Except.error "ValueError: negative dimensions are not allowed"
  else if mode ≠ "temperature" ∧ p = 0 then
    Except.error "ZeroDivisionError: float division by zero"
  else if p < 0 then Except.error "ValueError: Domain error in arguments."
  else Except.ok
    { n := n.toNat
      simulation_mode := mode
      physical_param := p
      box_size := 15
      pos := (List.range n.toNat).map (fun i => ((u i).1 * 15, (u i).2 * 15))
      vel := sample_velocities mode p n.toNat maxwellSample angle }

/-- A concrete one-particle system used to instantiate the theorems: the
particle sits at `(box_size - 0.01, 5)` and moves with velocity `(10, 0)`. -/
noncomputable def demoSys : ParticleSystem :=
  { n := 1
    simulation_mode := "temperature"
    physical_param := 2
    box_size := 15
    pos := [(14.99, 5)]
    vel := [(10, 0)] }

/-- C1: one call to `ParticleSystem.update` first translates every particle's
position by `velocity · dt` with `dt = 0.03` on both coordinates
independently, and then, per axis independently, negates the velocity
component on that axis exactly when the post-translation coordinate on that
axis is `< 0` or `> box_size`, leaving the other axis's component unaffected
and never clamping the position back inside the domain. -/
theorem C1_update_translates_then_reflects (s : ParticleSystem) (i : ℕ)
    (hp : i < s.pos.length) (hv : i < s.vel.length) :
    ∃ (h1 : i < s.update.pos.length) (h2 : i < s.update.vel.length),
      s.update.pos[i] = (s.pos[i].1 + s.vel[i].1 * 0.03, s.pos[i].2 + s.vel[i].2 * 0.03) ∧
      s.update.vel[i].1 =
        (if s.update.pos[i].1 < 0 ∨ s.update.pos[i].1 > s.box_size
         then -s.vel[i].1 else s.vel[i].1) ∧
      s.update.vel[i].2 =
        (if s.update.pos[i].2 < 0 ∨ s.update.pos[i].2 > s.box_size
         then -s.vel[i].2 else s.vel[i].2) := by
  have h1 : i < s.update.pos.length := by
    simp [ParticleSystem.update, List.length_zipWith]
    omega
  have h2 : i < s.update.vel.length := by
    simp [ParticleSystem.update, List.length_zipWith]
    omega
  refine ⟨h1, h2, ?_, ?_, ?_⟩ <;>
    simp [ParticleSystem.update, List.getElem_zipWith, reflect1]

/-- C1 witness: the spec's boundary example.  The particle at
`x = box_size - 0.01` with `vx = +10` ends, after one step, at
`x' = box_size + 0.29` (unclamped) with `vx' = -10`, while the y-axis
components `(5, 0)` are untouched. -/
theorem C1_witness :
    ∃ (h1 : 0 < demoSys.update.pos.length) (h2 : 0 < demoSys.update.vel.length),
      demoSys.update.pos[0] = ((15 : ℝ) + 0.29, 5) ∧
      demoSys.update.vel[0] = ((-10 : ℝ), 0) := by
  obtain ⟨h1, h2, hpos, hvx, hvy⟩ :=
    C1_update_translates_then_reflects demoSys 0 (by simp [demoSys]) (by simp [demoSys])
  have hpos' : demoSys.update.pos[0] = ((15 : ℝ) + 0.29, 5) := by
    rw [hpos]; simp [demoSys]; norm_num
  refine ⟨h1, h2, hpos', ?_⟩
  have hx : demoSys.update.pos[0].1 = (15 : ℝ) + 0.29 := by rw [hpos']
  have hy : demoSys.update.pos[0].2 = (5 : ℝ) := by rw [hpos']
  rw [Prod.ext_iff]
  constructor
  · rw [hvx, if_pos]
    · simp [demoSys]
    · rw [hx]; right; simp [demoSys]; norm_num
  · rw [hvy, if_neg]
    · simp [demoSys]
    · rw [hy]; simp [demoSys]; norm_num

/-- C2: for every positive `physical_param`, the scale used for velocity
sampling and the scale used for the characteristic speeds both equal
`physical_param` in temperature mode and `sqrt(1/physical_param)` in mass
mode: `_initialize_velocities` feeds exactly that scale to `maxwell.rvs`, and
`get_characteristic_speeds` multiplies its three constants by exactly that
scale. -/
theorem C2_scale_mapping (p : ℝ) (hp : 0 < p) (n : ℕ)
    (f : ℝ → ℕ → ℝ) (angle : ℕ → ℝ) :
    (sample_velocities "temperature" p n f angle =
      (List.range n).map (fun i =>
        (f p i * Real.cos (angle i), f p i * Real.sin (angle i)))) ∧
    (sample_velocities "mass" p n f angle =
      (List.range n).map (fun i =>
        (f (Real.sqrt (1 / p)) i * Real.cos (angle i),
         f (Real.sqrt (1 / p)) i * Real.sin (angle i)))) ∧
    (∀ s : ParticleSystem, s.simulation_mode = "temperature" → s.physical_param = p →
      s.get_characteristic_speeds =
        (Real.sqrt 2 * p, 2 * Real.sqrt (2 / Real.pi) * p, Real.sqrt 3 * p)) ∧
    (∀ s : ParticleSystem, s.simulation_mode = "mass" → s.physical_param = p →
      s.get_characteristic_speeds =
        (Real.sqrt 2 * Real.sqrt (1 / p), 2 * Real.sqrt (2 / Real.pi) * Real.sqrt (1 / p),
         Real.sqrt 3 * Real.sqrt (1 / p))) := by
  refine ⟨by simp [sample_velocities], by simp [sample_velocities], ?_, ?_⟩
  · intro s hm hpp
    simp [ParticleSystem.get_characteristic_speeds, hm, hpp]
  · intro s hm hpp
    simp [ParticleSystem.get_characteristic_speeds, hm, hpp]

/-- C2 witness: at `physical_param = 4` with a sampler returning its scale
argument, temperature-mode sampling uses scale `4` and a temperature-mode
system has characteristic speeds scaled by `4`. -/
theorem C2_witness :
    sample_velocities "temperature" 4 1 (fun sc _ => sc) (fun _ => 0) =
      [((4 : ℝ) * Real.cos 0, 4 * Real.sin 0)] ∧
    ({ demoSys with physical_param := 4 } : ParticleSystem).get_characteristic_speeds =
      (Real.sqrt 2 * 4, 2 * Real.sqrt (2 / Real.pi) * 4, Real.sqrt 3 * 4) := by
  obtain ⟨h1, _, h3, _⟩ := C2_scale_mapping 4 (by norm_num) 1 (fun sc _ => sc) (fun _ => 0)
  exact ⟨by simpa using h1, h3 _ rfl rfl⟩

/-- C3: `get_characteristic_speeds` returns exactly
`(sqrt(2)·scale, 2·sqrt(2/π)·scale, sqrt(3)·scale)` with the scale derived by
the mode mapping, and the result depends only on the mode and the physical
parameter — not on the particle count (any system with the same mode and
parameter agrees) and not on elapsed time (it is unchanged by any number of
`update` calls). -/
theorem C3_characteristic_speeds_closed_form (s : ParticleSystem)
    (hp : 0 < s.physical_param) :
    s.get_characteristic_speeds =
      (Real.sqrt 2 * scaleOf s.simulation_mode s.physical_param,
       2 * Real.sqrt (2 / Real.pi) * scaleOf s.simulation_mode s.physical_param,
       Real.sqrt 3 * scaleOf s.simulation_mode s.physical_param) ∧
    (∀ t : ParticleSystem, t.simulation_mode = s.simulation_mode →
      t.physical_param = s.physical_param →
      t.get_characteristic_speeds = s.get_characteristic_speeds) ∧
    (∀ k : ℕ, (s.advanceN k).get_characteristic_speeds = s.get_characteristic_speeds) := by
  have hchar : ∀ t : ParticleSystem, t.get_characteristic_speeds =
      (Real.sqrt 2 * scaleOf t.simulation_mode t.physical_param,
       2 * Real.sqrt (2 / Real.pi) * scaleOf t.simulation_mode t.physical_param,
       Real.sqrt 3 * scaleOf t.simulation_mode t.physical_param) := by
    intro t
    simp [ParticleSystem.get_characteristic_speeds, scaleOf]
  have hmode : ∀ k : ℕ, (s.advanceN k).simulation_mode = s.simulation_mode ∧
      (s.advanceN k).physical_param = s.physical_param := by
    intro k
    induction k with
    | zero => exact ⟨rfl, rfl⟩
    | succ k ih =>
      simpa [ParticleSystem.advanceN, ParticleSystem.update] using ih
  refine ⟨hchar s, ?_, ?_⟩
  · intro t hm hpp
    rw [hchar t, hchar s, hm, hpp]
  · intro k
    rw [hchar (s.advanceN k), hchar s, (hmode k).1, (hmode k).2]

/-- C3 witness: the one-particle demonstration system (temperature mode,
parameter 2) has characteristic speeds `(sqrt 2 · 2, 2·sqrt(2/π) · 2, sqrt 3 · 2)`,
and one `update` call leaves them unchanged. -/
theorem C3_witness :
    demoSys.get_characteristic_speeds =
      (Real.sqrt 2 * 2, 2 * Real.sqrt (2 / Real.pi) * 2, Real.sqrt 3 * 2) ∧
    (demoSys.advanceN 1).get_characteristic_speeds = demoSys.get_characteristic_speeds := by
  obtain ⟨h1, _, h3⟩ := C3_characteristic_speeds_closed_form demoSys (by norm_num [demoSys])
  refine ⟨?_, h3 1⟩
  rw [h1]
  norm_num [scaleOf, demoSys]

/-- C8: for every system whose derived scale is positive, the three
characteristic speeds are strictly ordered: the most probable speed
`sqrt(2)·scale` is below the mean speed `2·sqrt(2/π)·scale`, which is below
the root-mean-square speed `sqrt(3)·scale`. -/
theorem C8_characteristic_speeds_ordered (s : ParticleSystem)
    (hs : 0 < scaleOf s.simulation_mode s.physical_param) :
    s.get_characteristic_speeds.1 < s.get_characteristic_speeds.2.1 ∧
    s.get_characteristic_speeds.2.1 < s.get_characteristic_speeds.2.2 := by
  have hpi := Real.pi_pos
  have h314 := Real.pi_gt_314
  have h315 := Real.pi_lt_315
  have hmean : 2 * Real.sqrt (2 / Real.pi) = Real.sqrt (8 / Real.pi) := by
    rw [show (8 : ℝ) / Real.pi = 4 * (2 / Real.pi) by ring,
      Real.sqrt_mul (by norm_num),
      show (4 : ℝ) = 2 ^ 2 by norm_num, Real.sqrt_sq (by norm_num)]
  have h1 : Real.sqrt 2 < 2 * Real.sqrt (2 / Real.pi) := by
    rw [hmean]
    apply Real.sqrt_lt_sqrt (by norm_num)
    rw [lt_div_iff hpi]
    nlinarith
  have h2 : 2 * Real.sqrt (2 / Real.pi) < Real.sqrt 3 := by
    rw [hmean]
    apply Real.sqrt_lt_sqrt (by positivity)
    rw [div_lt_iff hpi]
    nlinarith
  have hchar : s.get_characteristic_speeds =
      (Real.sqrt 2 * scaleOf s.simulation_mode s.physical_param,
       2 * Real.sqrt (2 / Real.pi) * scaleOf s.simulation_mode s.physical_param,
       Real.sqrt 3 * scaleOf s.simulation_mode s.physical_param) := by
    simp [ParticleSystem.get_characteristic_speeds, scaleOf]
  rw [hchar]
  exact ⟨mul_lt_mul_of_pos_right h1 hs, mul_lt_mul_of_pos_right h2 hs⟩

/-- C8 witness: the demonstration system (temperature mode, parameter 2, so
scale 2) has strictly ordered characteristic speeds. -/
theorem C8_witness :
    demoSys.get_characteristic_speeds.1 < demoSys.get_characteristic_speeds.2.1 ∧
    demoSys.get_characteristic_speeds.2.1 < demoSys.get_characteristic_speeds.2.2 :=
  C8_characteristic_speeds_ordered demoSys (by norm_num [scaleOf, demoSys])

/-- Helper: `update` only negates velocity components, so the Euclidean norms
are untouched: the speeds list after one `update` equals the one before. -/
theorem speeds_update_eq (s : ParticleSystem) (h : s.pos.length = s.vel.length) :
    s.update.speeds = s.speeds := by
  apply List.ext_getElem
  · simp [ParticleSystem.update, ParticleSystem.speeds, List.length_zipWith, h]
  · intro i h1 h2
    simp only [ParticleSystem.speeds, ParticleSystem.update, List.getElem_map,
      List.getElem_zipWith, reflect1]
    split_ifs <;> congr 1 <;> ring

/-- Helper: `demoSys.update` evaluated — the particle overshoots to `15.29`
and its x-velocity flips sign. -/
theorem demoSys_update_vel : demoSys.update.vel = [((-10 : ℝ), 0)] := by
  simp only [demoSys, ParticleSystem.update, List.zipWith_cons_cons, List.zipWith_nil_right,
    reflect1]
  norm_num

/-- C5: the `speeds` property returns a freshly computed list of exactly
`count` values whose `i`-th element is `sqrt(vx_i² + vy_i²)`, the Euclidean
norm of particle `i`'s current velocity, and every value is non-negative. -/
theorem C5_speeds_are_norms (s : ParticleSystem) (hc : s.vel.length = s.n) :
    s.speeds.length = s.n ∧
    ∀ i : ℕ, i < s.n →
      ∃ (h1 : i < s.speeds.length) (h2 : i < s.vel.length),
        s.speeds[i] = Real.sqrt (s.vel[i].1 ^ 2 + s.vel[i].2 ^ 2) ∧ 0 ≤ s.speeds[i] := by
  have hl : s.speeds.length = s.n := by
    simp [ParticleSystem.speeds, hc]
  refine ⟨hl, fun i hi => ?_⟩
  have h1 : i < s.speeds.length := by omega
  have h2 : i < s.vel.length := by omega
  refine ⟨h1, h2, ?_, ?_⟩
  · simp [ParticleSystem.speeds]
  · simp only [ParticleSystem.speeds, List.getElem_map]
    exact Real.sqrt_nonneg _

/-- C5 witness: the demonstration system's single speed is `sqrt(10² + 0²)`,
and it is non-negative. -/
theorem C5_witness :
    demoSys.speeds.length = demoSys.n ∧
    ∃ (h1 : 0 < demoSys.speeds.length) (h2 : 0 < demoSys.vel.length),
      demoSys.speeds[0] = Real.sqrt ((10 : ℝ) ^ 2 + 0 ^ 2) ∧ (0 : ℝ) ≤ demoSys.speeds[0] := by
  obtain ⟨hl, hall⟩ := C5_speeds_are_norms demoSys rfl
  obtain ⟨h1, h2, he, hn⟩ := hall 0 (by norm_num [demoSys])
  refine ⟨hl, h1, h2, ?_, hn⟩
  rw [he]
  simp [demoSys]

/-- C6: `update` never resamples velocities — after one call each velocity
component equals either its previous value or its negation, and consequently
the speeds list (the per-particle Euclidean norms) is unchanged by `update`. -/
theorem C6_advance_never_resamples (s : ParticleSystem)
    (h : s.pos.length = s.vel.length) :
    (∀ (i : ℕ) (hi : i < s.vel.length),
      ∃ (h1 : i < s.update.vel.length),
        (s.update.vel[i].1 = s.vel[i].1 ∨ s.update.vel[i].1 = -s.vel[i].1) ∧
        (s.update.vel[i].2 = s.vel[i].2 ∨ s.update.vel[i].2 = -s.vel[i].2)) ∧
    s.update.speeds = s.speeds := by
  refine ⟨fun i hi => ?_, speeds_update_eq s h⟩
  have h1 : i < s.update.vel.length := by
    simp [ParticleSystem.update, List.length_zipWith, h]
    omega
  refine ⟨h1, ?_, ?_⟩ <;>
  · simp only [ParticleSystem.update, List.getElem_zipWith, reflect1]
    split_ifs <;> simp

/-- C6 witness: for the demonstration system, the x-velocity after `update`
is the negation of its previous value and the speeds list is unchanged. -/
theorem C6_witness :
    (∃ h1 : 0 < demoSys.update.vel.length,
      demoSys.update.vel[0].1 = demoSys.vel[0].1 ∨
      demoSys.update.vel[0].1 = -demoSys.vel[0].1) ∧
    demoSys.update.speeds = demoSys.speeds := by
  obtain ⟨hall, hsp⟩ := C6_advance_never_resamples demoSys rfl
  obtain ⟨h1, ha, -⟩ := hall 0 (by norm_num [demoSys])
  exact ⟨⟨h1, ha⟩, hsp⟩

/-- C9 counterexample: in the demonstration system the x-velocity changes
sign during `update` (from `10` to `-10`), yet the two speeds sequences —
one read before `update`, one after — are equal, because the Euclidean norm
is invariant under negating a component.  So two `instantaneousSpeeds` calls
bracketing an `advance` need NOT differ when a velocity changed sign. -/
theorem C9_counterexample :
    (∃ (hv : 0 < demoSys.vel.length) (hv' : 0 < demoSys.update.vel.length),
      demoSys.update.vel[0].1 = -demoSys.vel[0].1 ∧ demoSys.vel[0].1 ≠ 0) ∧
    demoSys.update.speeds = demoSys.speeds := by
  have hv : demoSys.update.vel = [((-10 : ℝ), 0)] := demoSys_update_vel
  refine ⟨⟨by norm_num [demoSys], by simp [hv], ?_, ?_⟩, ?_⟩
  · simp only [hv]
    simp [demoSys]
  · simp [demoSys]
  · exact speeds_update_eq demoSys rfl

/-- C9 amended: two `instantaneousSpeeds` reads bracketing one `advance` are
EQUAL — also (in particular) when some velocity component changed sign during
that `advance` — since reflection only negates components and the norm is
invariant under negation. -/
theorem C9_speeds_equal_across_advance (s : ParticleSystem)
    (h : s.pos.length = s.vel.length)
    (hsign : ∃ (i : ℕ) (h1 : i < s.vel.length) (h2 : i < s.update.vel.length),
      s.update.vel[i].1 = -s.vel[i].1 ∨ s.update.vel[i].2 = -s.vel[i].2) :
    s.update.speeds = s.speeds :=
  speeds_update_eq s h

/-- C9 witness: the amended statement instantiated at the demonstration
system, whose x-velocity does change sign during the step. -/
theorem C9_witness : demoSys.update.speeds = demoSys.speeds := by
  have hv : demoSys.update.vel = [((-10 : ℝ), 0)] := demoSys_update_vel
  apply C9_speeds_equal_across_advance demoSys rfl
  exact ⟨0, by norm_num [demoSys], by simp [hv],
    Or.inl (by simp only [hv]; simp [demoSys])⟩

/-- C4 counterexample: constructing with the non-positive count `n = 0` (and a
perfectly valid `physical_param = 1`) succeeds — no error is raised at
construction, refuting the claim that construction fails for every
non-positive count. -/
theorem C4_counterexample :
    exceptOk (ParticleSystem.init 0 "temperature" 1
      (fun _ => (0, 0)) (fun _ _ => 0) (fun _ => 0)) = true := by
  rw [ParticleSystem.init]
  norm_num [exceptOk]

/-- C4 amended: the constructor performs no validation of its own.
Construction succeeds exactly when no library call on its path raises: for
every non-negative count and non-negative `physical_param` that is not the
mass-mode zero.  In particular `count = 0` and temperature mode with
`physical_param = 0` construct successfully and silently; the rejections of
negative counts and negative parameters come from `numpy`/`scipy`, not from
any check in `__init__`. -/
theorem C4_construction_not_validated (n : ℤ) (mode : String) (p : ℝ)
    (u : ℕ → ℝ × ℝ) (f : ℝ → ℕ → ℝ) (a : ℕ → ℝ) :
    exceptOk (ParticleSystem.init n mode p u f a) = true ↔
      0 ≤ n ∧ 0 ≤ p ∧ (mode = "temperature" ∨ p ≠ 0) := by
  rw [ParticleSystem.init]
  split_ifs with h1 h2 h3
  · simp only [exceptOk, Bool.false_eq_true, false_iff]
    rintro ⟨hn, -, -⟩
    omega
  · simp only [exceptOk, Bool.false_eq_true, false_iff]
    rintro ⟨-, -, hmp⟩
    rcases hmp with hm | hp0
    · exact h2.1 hm
    · exact hp0 h2.2
  · simp only [exceptOk, Bool.false_eq_true, false_iff]
    rintro ⟨-, hp, -⟩
    linarith
  · simp only [exceptOk, true_iff]
    push_neg at h2
    refine ⟨by omega, by linarith, ?_⟩
    by_cases hm : mode = "temperature"
    · exact Or.inl hm
    · exact Or.inr (h2 hm)

/-- Helper: one `update` keeps the particle count field and, when both arrays
have length `n`, keeps both array lengths equal to `n`. -/
theorem update_lengths (s : ParticleSystem) (hp : s.pos.length = s.n)
    (hv : s.vel.length = s.n) :
    s.update.n = s.n ∧ s.update.pos.length = s.n ∧ s.update.vel.length = s.n := by
  simp [ParticleSystem.update, List.length_zipWith, hp, hv]

/-- C7: for every count > 0 (indeed every non-negative count) and valid
parameter, a successful construction yields `positions.length =
velocities.length = count`, and the invariant is preserved by every number of
`update` calls (the statistics readers `speeds` and
`get_characteristic_speeds` do not mutate the state at all in this
embedding). -/
theorem C7_lengths_invariant (n : ℤ) (hn : 0 < n) (mode : String) (p : ℝ)
    (hp : 0 < p) (u : ℕ → ℝ × ℝ) (f : ℝ → ℕ → ℝ) (a : ℕ → ℝ)
    (sys : ParticleSystem)
    (hinit : ParticleSystem.init n mode p u f a = Except.ok sys) :
    sys.n = n.toNat ∧ sys.pos.length = sys.n ∧ sys.vel.length = sys.n ∧
    ∀ k : ℕ, (sys.advanceN k).n = sys.n ∧
      (sys.advanceN k).pos.length = sys.n ∧ (sys.advanceN k).vel.length = sys.n := by
  rw [ParticleSystem.init, if_neg (by omega),
    if_neg (by rintro ⟨-, h0⟩; exact absurd h0 (ne_of_gt hp)),
    if_neg (by linarith)] at hinit
  have hsys := Except.ok.inj hinit
  subst hsys
  refine ⟨rfl, by simp, by simp [sample_velocities], ?_⟩
  intro k
  induction k with
  | zero =>
    exact ⟨rfl, by simp [ParticleSystem.advanceN],
      by simp [ParticleSystem.advanceN, sample_velocities]⟩
  | succ k ih =>
    obtain ⟨ihn, ihp, ihv⟩ := ih
    have := update_lengths _ (by rw [ihp, ihn]) (by rw [ihv, ihn])
    simpa [ParticleSystem.advanceN, ihn] using this

/-- C7 witness: constructing one particle in temperature mode with parameter 1
succeeds and both arrays have length 1, preserved after any number of steps
(instantiated for the state itself, `k = 0` being included in the theorem's
conclusion). -/
theorem C7_witness :
    ∃ sys : ParticleSystem,
      ParticleSystem.init 1 "temperature" 1
        (fun _ => (0, 0)) (fun _ _ => 0) (fun _ => 0) = Except.ok sys ∧
      sys.n = 1 ∧ sys.pos.length = sys.n ∧ sys.vel.length = sys.n := by
  obtain ⟨sys, hsys⟩ : ∃ sys : ParticleSystem, ParticleSystem.init 1 "temperature" 1
      (fun _ => (0, 0)) (fun _ _ => 0) (fun _ => 0) = Except.ok sys := by
    rw [ParticleSystem.init, if_neg (by omega), if_neg (by simp), if_neg (by norm_num)]
    exact ⟨_, rfl⟩
  obtain ⟨h1, h2, h3, -⟩ := C7_lengths_invariant 1 (by omega) "temperature" 1
    (by norm_num) (fun _ => (0, 0)) (fun _ _ => 0) (fun _ => 0) sys hsys
  refine ⟨sys, hsys, ?_, h2, h3⟩
  rw [h1]
  rfl

/-- C10: the mode string is never validated.  For every mode other than the
exact string `"temperature"` — `"mass"`, `"Temperature"`, `"banana"`, … —
construction succeeds without error (given otherwise valid inputs), the
velocity sampler is fed the mass-mode scale `sqrt(1/physical_param)`, and
`get_characteristic_speeds` silently uses that same mass-mode scale. -/
theorem C10_mode_never_validated (mode : String) (hm : mode ≠ "temperature")
    (p : ℝ) (hp : 0 < p) (n : ℤ) (hn : 0 ≤ n)
    (u : ℕ → ℝ × ℝ) (f : ℝ → ℕ → ℝ) (a : ℕ → ℝ) :
    exceptOk (ParticleSystem.init n mode p u f a) = true ∧
    sample_velocities mode p n.toNat f a =
      (List.range n.toNat).map (fun i =>
        (f (Real.sqrt (1 / p)) i * Real.cos (a i),
         f (Real.sqrt (1 / p)) i * Real.sin (a i))) ∧
    (∀ s : ParticleSystem, s.simulation_mode = mode → s.physical_param = p →
      s.get_characteristic_speeds =
        (Real.sqrt 2 * Real.sqrt (1 / p), 2 * Real.sqrt (2 / Real.pi) * Real.sqrt (1 / p),
         Real.sqrt 3 * Real.sqrt (1 / p))) := by
  refine ⟨?_, ?_, ?_⟩
  · rw [ParticleSystem.init, if_neg (by omega),
      if_neg (by rintro ⟨-, h0⟩; exact absurd h0 (ne_of_gt hp)),
      if_neg (by linarith)]
    simp [exceptOk]
  · simp [sample_velocities, hm]
  · intro s h1 h2
    simp [ParticleSystem.get_characteristic_speeds, h1, h2, hm]

/-- C10 witness: the unrecognized mode `"banana"` constructs without error and
yields mass-mode characteristic speeds with scale `sqrt(1/4)`. -/
theorem C10_witness :
    exceptOk (ParticleSystem.init 1 "banana" 4
      (fun _ => (0, 0)) (fun _ _ => 0) (fun _ => 0)) = true ∧
    ({ demoSys with simulation_mode := "banana", physical_param := 4 } :
        ParticleSystem).get_characteristic_speeds =
      (Real.sqrt 2 * Real.sqrt (1 / 4), 2 * Real.sqrt (2 / Real.pi) * Real.sqrt (1 / 4),
       Real.sqrt 3 * Real.sqrt (1 / 4)) := by
  obtain ⟨h1, -, h3⟩ := C10_mode_never_validated "banana" (by decide) 4 (by norm_num)
    1 (by omega) (fun _ => (0, 0)) (fun _ _ => 0) (fun _ => 0)
  exact ⟨h1, h3 _ rfl rfl⟩
